import Mathlib

/-!
Shallow embedding of the two batch scripts of this repository:
`tabulate.py` (block reward tabulator, extended variant) and
`analyse_missed.py` (missed-attestation aggregator).

JSON reward maps (validator index → reward) are modelled as association
lists `List (Nat × Int)`; Python dict semantics (unique keys, insertion
order) are preserved by the accumulator operations below.
-/

/-- A block-reward record (one `block_stats` JSON file), as read by
`tabulate.py`: graffiti string, total reward, the ordered list of
per-attestation reward maps, and the previous/current epoch reward maps. -/
structure RewardData where
  graffiti : String
  total : Int
  per_attestation_rewards : List (List (Nat × Int))
  prev_epoch_rewards : List (Nat × Int)
  curr_epoch_rewards : List (Nat × Int)
deriving Inhabited, Repr

/-- A raw block record (one `blocks` JSON file): the list of
`att.data.slot` values of the attestations in the block body, in order. -/
structure BlockData where
  attestations : List Int
deriving Inhabited, Repr

/-- One input file of the tabulator, already parsed: the slot extracted
from the filename, the reward record and the matching raw block record.
A run processes these in filename-sorted order. -/
structure InputFile where
  slot : Int
  rewards : RewardData
  block : BlockData
deriving Inhabited, Repr

/-- One CSV data row of `summary.csv`, with the fields of `FIELD_NAMES`. -/
structure Row where
  slot : Int
  graffiti : String
  num_attestations : Nat
  useless_attestations : Nat
  validators_covered : Nat
  block_reward : Int
  parent_slot : Int
  num_salvaged : Nat
  salvaged_votes : Nat
  salvaged_rewards : Int
  all_strict_ord : Bool
  num_strict_ord : Nat
  seq_strict_ord : Nat
  all_lenient_ord : Bool
  num_lenient_ord : Nat
  seq_lenient_ord : Nat
deriving Inhabited, Repr

/-- Python `sum(rewards.values())` for a reward map. -/
def sumValues (m : List (Nat × Int)) : Int :=
  (m.map Prod.snd).sum

/-- The `(att, rewards)` pairs appended to `salvaged_attestations` by the
loop in `tabulate.py` (lines 48-54): the zip of the block-body attestation
slots with the per-attestation reward maps, filtered to the pairs with a
non-empty reward map and an attestation slot strictly below `parent_slot`. -/
def salvagedPairs (parent_slot : Int) (atts : List Int)
    (pars : List (List (Nat × Int))) : List (Int × List (Nat × Int)) :=
  (atts.zip pars).filter fun p => !p.2.isEmpty && decide (p.1 < parent_slot)

/-- `per_attestation_totals` of `tabulate.py` line 57. -/
def per_attestation_totals (pars : List (List (Nat × Int))) : List Int :=
  pars.map sumValues

/-- `strict_comparisons` (lines 58-59): for each consecutive pair of
totals, whether the left is ≥ the right. -/
def strictComparisons : List Int → List Bool
  | a :: b :: rest => decide (a ≥ b) :: strictComparisons (b :: rest)
  | _ => []

/-- `lenient_comparisons` (lines 60-63): like the strict comparison but a
pair also passes when either side is zero. -/
def lenientComparisons : List Int → List Bool
  | a :: b :: rest =>
      (decide (a ≥ b) || decide (a = 0) || decide (b = 0)) ::
        lenientComparisons (b :: rest)
  | _ => []

/-- The row `tabulate.py` writes for one file, given the tracked
`parent_slot` (lines 30-93 of the loop body). -/
def makeRow (parent_slot : Int) (file : InputFile) : Row :=
  let json := file.rewards
  let pars := json.per_attestation_rewards
  let salv := salvagedPairs parent_slot file.block.attestations pars
  let strictC := strictComparisons (per_attestation_totals pars)
  let lenientC := lenientComparisons (per_attestation_totals pars)
  { slot := file.slot
    graffiti := json.graffiti
    num_attestations := pars.length
    useless_attestations := pars.countP fun m => m.length == 0
    validators_covered := json.prev_epoch_rewards.length + json.curr_epoch_rewards.length
    block_reward := json.total
    parent_slot := parent_slot
    num_salvaged := salv.length
    salvaged_votes := (salv.map fun p => p.2.length).sum
    salvaged_rewards := (salv.map fun p => sumValues p.2).sum
    all_strict_ord := strictC.all id
    num_strict_ord := strictC.countP id
    seq_strict_ord := (strictC.takeWhile id).length
    all_lenient_ord := lenientC.all id
    num_lenient_ord := lenientC.countP id
    seq_lenient_ord := (lenientC.takeWhile id).length }

/-- The tabulator loop: emit one row per file, carrying `parent_slot`
across iterations (updated to the current file's slot after each row). -/
def tabulateFrom (parent_slot : Int) : List InputFile → List Row
  | [] => []
  | f :: fs => makeRow parent_slot f :: tabulateFrom f.slot fs

/-- One run of `tabulate.py` over the filename-sorted input files: the
data rows written to `summary.csv`, and whether the run completed without
error.  On an empty input set the script writes the CSV header, then
aborts with an `IndexError` at `get_slot(filenames[0])` (line 27) having
written no data rows; otherwise `parent_slot` starts at the first file's
slot minus one. -/
def tabulate (files : List InputFile) : List Row × Bool :=
  match files with
  | [] => ([], false)
  | f :: fs => (tabulateFrom (f.slot - 1) (f :: fs), true)

/-! Embedding of `analyse_missed.py`. -/

/-- One input file of the missed-attestation aggregator, already parsed:
the slot from the filename, the `"all"` list of validator indices that
missed, and the subnet of each entry of `"per_attestation"`. -/
structure MissedFile where
  slot : Int
  all : List Nat
  per_attestation : List Nat
deriving Inhabited, Repr, DecidableEq

/-- The three accumulators of `analyse_missed.py`, in insertion order
(Python dicts preserve insertion order): validator → miss count,
subnet → miss count, and slot-mod-32 → missed-validator count. -/
structure MissedOutput where
  missed_validators : List (Nat × Nat)
  missed_subnets : List (Nat × Nat)
  missed_by_slot : List (Int × Nat)
deriving Inhabited, Repr, DecidableEq

/-- Python `d[k] += 1 if k in d else d[k] = 1` on an insertion-ordered
dict modelled as an association list: bump the existing entry for `k`,
or append `(k, 1)` at the end. -/
def bumpCount : List (Nat × Nat) → Nat → List (Nat × Nat)
  | [], v => [(v, 1)]
  | (k, c) :: rest, v =>
      if k = v then (k, c + 1) :: rest else (k, c) :: bumpCount rest v

/-- Python `missed_by_slot[slot_mod] += n`: add `n` to the entry keyed
`k` (the key is always present, pre-populated for 0..31). -/
def addAt (m : List (Int × Nat)) (k : Int) (n : Nat) : List (Int × Nat) :=
  m.map fun p => if p.1 = k then (p.1, p.2 + n) else p

/-- The loop body of `analyse_missed.py` (lines 29-50) for one file. -/
def analyseStep (st : MissedOutput) (f : MissedFile) : MissedOutput :=
  { missed_by_slot := addAt st.missed_by_slot (f.slot % 32) f.all.length
    missed_validators := f.all.foldl bumpCount st.missed_validators
    missed_subnets := f.per_attestation.foldl bumpCount st.missed_subnets }

/-- The initial accumulators: `missed_by_slot` is pre-populated with keys
0..31 mapped to 0 (line 27); the other two maps start empty. -/
def analyseInit : MissedOutput :=
  { missed_validators := []
    missed_subnets := []
    missed_by_slot := (List.range 32).map fun i => (Int.ofNat i, 0) }

/-- One run of `analyse_missed.py` over the filename-sorted input files:
the contents of the three CSVs it writes (rows in dict insertion order). -/
def analyse (files : List MissedFile) : MissedOutput :=
  files.foldl analyseStep analyseInit

/-! Run-level model: filename listing, `get_slot`, sorting.  Used for the
determinism claim, where the directory listing may be enumerated in any
order by `os.walk` and the scripts sort it before processing. -/

/-- `get_slot` of both scripts: `int(filename.split(".")[0].split("_")[1])`.
`none` models the `IndexError`/`ValueError` raised on a malformed name. -/
def get_slot (filename : String) : Option Int :=
  match ((filename.splitOn ".").headD "").splitOn "_" with
  | _ :: s :: _ => s.toInt?
  | _ => none

/-- Read one tabulator input file: slot from the filename, contents from
the data and block directories (modelled as lookup functions). -/
def readInputFile (rewardOf : String → RewardData) (blockOf : String → BlockData)
    (fn : String) : Option InputFile :=
  (get_slot fn).map fun s => { slot := s, rewards := rewardOf fn, block := blockOf fn }

/-- A full `tabulate.py` run: sort the directory listing by filename
(`sorted(...)`, line 21), parse each file, tabulate.  `none` models a
run aborted by a filename-parsing error. -/
def tabulateRun (listing : List String) (rewardOf : String → RewardData)
    (blockOf : String → BlockData) : Option (List Row × Bool) :=
  ((listing.insertionSort (· ≤ ·)).mapM (readInputFile rewardOf blockOf)).map tabulate

/-- Read one aggregator input file: slot from the filename, contents from
the data directory (modelled as a lookup function). -/
def readMissedFile (missedOf : String → List Nat × List Nat) (fn : String) :
    Option MissedFile :=
  (get_slot fn).map fun s =>
    { slot := s, all := (missedOf fn).1, per_attestation := (missedOf fn).2 }

/-- A full `analyse_missed.py` run: sort the directory listing by filename
(line 18), parse each file, aggregate. -/
def analyseRun (listing : List String) (missedOf : String → List Nat × List Nat) :
    Option MissedOutput :=
  ((listing.insertionSort (· ≤ ·)).mapM (readMissedFile missedOf)).map analyse

/-! Spec-side definitions, written from the specification's wording, to be
compared with the code-side definitions above in the refinement claims. -/

/-- Spec-side: the parent slot prescribed for the k-th row: the first
file's slot minus one for the first file, the previous file's slot
thereafter. -/
def specParentSlot (files : List InputFile) (k : Nat) : Int :=
  if k = 0 then (files.getD 0 default).slot - 1
  else (files.getD (k - 1) default).slot

/-- Spec-side: the classification of the i-th attestation of the block
body: salvaged exactly when its corresponding reward map (by index) is
non-empty and its slot is strictly less than the parent slot. -/
def specSalvaged (parent_slot : Int) (f : InputFile) (i : Nat) : Bool :=
  !(f.rewards.per_attestation_rewards.getD i []).isEmpty &&
    decide (f.block.attestations.getD i 0 < parent_slot)

/-- Spec-side: the indices of the attestations of the block body that are
classified salvaged. -/
def specSalvagedIdx (parent_slot : Int) (f : InputFile) : List Nat :=
  (List.range f.block.attestations.length).filter fun i => specSalvaged parent_slot f i

/-- Spec-side: the number of salvaged attestations. -/
def specNumSalvaged (parent_slot : Int) (f : InputFile) : Nat :=
  (specSalvagedIdx parent_slot f).length

/-- Spec-side: the total number of rewarded validators over the salvaged
attestations. -/
def specSalvagedVotes (parent_slot : Int) (f : InputFile) : Nat :=
  ((specSalvagedIdx parent_slot f).map fun i =>
    (f.rewards.per_attestation_rewards.getD i []).length).sum

/-- Spec-side: the sum of the reward values over the salvaged
attestations. -/
def specSalvagedRewardSum (parent_slot : Int) (f : InputFile) : Int :=
  ((specSalvagedIdx parent_slot f).map fun i =>
    sumValues (f.rewards.per_attestation_rewards.getD i [])).sum

/-- Spec-side: the number of attestations with zero contributing rewards,
i.e. whose reward map contributes no rewards (is empty). -/
def specUselessCount (pars : List (List (Nat × Int))) : Nat :=
  (pars.filter fun m => m.isEmpty).length

/-- The sum of the counts of an accumulator map: for the validator CSV,
the total number of misses reported over all rows. -/
def sumCounts (m : List (Nat × Nat)) : Nat :=
  (m.map Prod.snd).sum

/-- The total number of missed validators reported by the input files
whose slot is congruent to `k` modulo 32. -/
def missesAt (k : Int) (files : List MissedFile) : Nat :=
  ((files.filter fun f => f.slot % 32 == k).map fun f => f.all.length).sum

/-! Concrete sample inputs, used by the witness theorems. -/

/-- A reward record whose per-attestation reward maps give the totals
10, 8, 0, 5 of the spec's worked example. -/
def rewardDataEx : RewardData :=
  { graffiti := "client X"
    total := 23
    per_attestation_rewards := [[(1, 10)], [(1, 8)], [(1, 0)], [(1, 5)]]
    prev_epoch_rewards := [(1, 20)]
    curr_epoch_rewards := [(2, 3)]
  }

/-- A two-file tabulator input: slots 100 and 101; the second block body
holds an attestation for slot 99 with a non-empty reward map (salvaged
relative to parent slot 100) and one for slot 100 (not salvaged). -/
def filesEx : List InputFile :=
  [ { slot := 100
      rewards := { graffiti := "a"
                   total := 9
                   per_attestation_rewards := [[(3, 9)]]
                   prev_epoch_rewards := []
                   curr_epoch_rewards := [] }
      block := { attestations := [99] } }
  , { slot := 101
      rewards := { graffiti := "b"
                   total := 12
                   per_attestation_rewards := [[(1, 5)], [(2, 7)]]
                   prev_epoch_rewards := []
                   curr_epoch_rewards := [] }
      block := { attestations := [99, 100] } } ]

/-- A tabulator input file carrying the worked example's reward record. -/
def fileEx : InputFile :=
  { slot := 7, rewards := rewardDataEx, block := { attestations := [] } }

/-- A tabulator input file whose totals are [3, 5] (first pair violates
both the strict and the lenient ordering). -/
def fileUp : InputFile :=
  { slot := 4
    rewards := { graffiti := ""
                 total := 8
                 per_attestation_rewards := [[(1, 3)], [(2, 5)]]
                 prev_epoch_rewards := []
                 curr_epoch_rewards := [] }
    block := { attestations := [] } }

/-- A one-file aggregator input: slot 5, one missed validator, subnet 2. -/
def missedFilesEx : List MissedFile :=
  [{ slot := 5, all := [7], per_attestation := [2] }]

/-! Helper lemmas. -/

/-- The tabulator loop emits one row per input file. -/
theorem tabulateFrom_length (parent_slot : Int) :
    ∀ files : List InputFile, (tabulateFrom parent_slot files).length = files.length
  | [] => rfl
  | f :: fs => by simp [tabulateFrom, tabulateFrom_length f.slot fs]

/-- The k-th row of the tabulator loop is `makeRow` at the k-th file, with
the parent slot being the loop's initial value for k = 0 and the (k−1)-th
file's slot afterwards. -/
theorem tabulateFrom_getD (parent_slot : Int) :
    ∀ (files : List InputFile) (k : Nat), k < files.length →
      (tabulateFrom parent_slot files).getD k default =
        makeRow (if k = 0 then parent_slot else (files.getD (k - 1) default).slot)
          (files.getD k default)
  | [], k, hk => by simp at hk
  | f :: fs, 0, _ => rfl
  | f :: fs, k + 1, hk => by
      have hk' : k < fs.length := by simpa using hk
      have ih := tabulateFrom_getD f.slot fs k hk'
      simp only [tabulateFrom, List.getD_cons_succ, ih]
      cases k with
      | zero => rfl
      | succ j => rfl

/-- Summing the image of `1` over a list gives its length. -/
theorem sum_map_one {α : Type} : ∀ l : List α, (l.map fun _ => (1 : Nat)).sum = l.length
  | [] => rfl
  | _ :: rest => by simp [sum_map_one rest, Nat.add_comm]

/-- Summing `g` over the salvaged pairs of the zip equals summing `g` over
the salvaged block-body indices, reading the attestation slot and reward
map by index with out-of-range defaults. -/
theorem salvage_sum_eq {M : Type} [AddCommMonoid M] (ps : Int)
    (g : Int → List (Nat × Int) → M) :
    ∀ (atts : List Int) (pars : List (List (Nat × Int))),
      (((atts.zip pars).filter fun p => !p.2.isEmpty && decide (p.1 < ps)).map
          fun p => g p.1 p.2).sum =
      (((List.range atts.length).filter fun i =>
            !(pars.getD i []).isEmpty && decide (atts.getD i 0 < ps)).map
          fun i => g (atts.getD i 0) (pars.getD i [])).sum
  | [], pars => by simp
  | a :: as, [] => by
      have hnil : ∀ i : Nat, (List.getD ([] : List (List (Nat × Int))) i []) = [] := by
        intro i; cases i <;> rfl
      simp [hnil]
  | a :: as, p :: pars => by
      have ih := salvage_sum_eq ps g as pars
      simp only [List.zip_cons_cons, List.length_cons, List.range_succ_eq_map,
        List.filter_cons, List.filter_map, List.map_map, Function.comp_def,
        Nat.succ_eq_add_one, List.getD_cons_zero, List.getD_cons_succ]
      by_cases hp : (!p.isEmpty && decide (a < ps)) = true
      · simp [hp, ih, Function.comp_def, Nat.succ_eq_add_one, List.getElem?_cons_succ]
      · simp [hp, ih, Function.comp_def, Nat.succ_eq_add_one, List.getElem?_cons_succ]

/-- The `num_salvaged` field of a row equals the spec-side count. -/
theorem makeRow_num_salvaged (ps : Int) (f : InputFile) :
    (makeRow ps f).num_salvaged = specNumSalvaged ps f := by
  have h := salvage_sum_eq ps (fun _ _ => (1 : Nat)) f.block.attestations
    f.rewards.per_attestation_rewards
  simpa [makeRow, salvagedPairs, specNumSalvaged, specSalvagedIdx, specSalvaged,
    sum_map_one] using h

/-- The `salvaged_votes` field of a row equals the spec-side vote count. -/
theorem makeRow_salvaged_votes (ps : Int) (f : InputFile) :
    (makeRow ps f).salvaged_votes = specSalvagedVotes ps f := by
  have h := salvage_sum_eq ps (fun _ m => m.length) f.block.attestations
    f.rewards.per_attestation_rewards
  simpa [makeRow, salvagedPairs, specSalvagedVotes, specSalvagedIdx, specSalvaged]
    using h

/-- The `salvaged_rewards` field of a row equals the spec-side reward sum. -/
theorem makeRow_salvaged_rewards (ps : Int) (f : InputFile) :
    (makeRow ps f).salvaged_rewards = specSalvagedRewardSum ps f := by
  have h := salvage_sum_eq ps (fun _ m => sumValues m) f.block.attestations
    f.rewards.per_attestation_rewards
  simpa [makeRow, salvagedPairs, specSalvagedRewardSum, specSalvagedIdx, specSalvaged]
    using h

/-- There is one comparison per consecutive pair of totals. -/
theorem strictComparisons_length :
    ∀ l : List Int, (strictComparisons l).length = l.length - 1
  | [] => rfl
  | [_] => rfl
  | _ :: b :: rest => by
      simp [strictComparisons, strictComparisons_length (b :: rest)]

/-- There is one comparison per consecutive pair of totals. -/
theorem lenientComparisons_length :
    ∀ l : List Int, (lenientComparisons l).length = l.length - 1
  | [] => rfl
  | [_] => rfl
  | _ :: b :: rest => by
      simp [lenientComparisons, lenientComparisons_length (b :: rest)]

/-- If every consecutive pair of totals is non-increasing, every strict
comparison is `true`. -/
theorem strict_all_of_chain : ∀ l : List Int, l.Chain' (· ≥ ·) →
    (strictComparisons l).all id = true
  | [], _ => rfl
  | [_], _ => rfl
  | _ :: b :: rest, h => by
      rw [List.chain'_cons] at h
      simp [strictComparisons, h.1, strict_all_of_chain (b :: rest) h.2]

/-- If every consecutive pair of totals satisfies the lenient relation,
every lenient comparison is `true`. -/
theorem lenient_all_of_chain :
    ∀ l : List Int, l.Chain' (fun a b => a ≥ b ∨ a = 0 ∨ b = 0) →
      (lenientComparisons l).all id = true
  | [], _ => rfl
  | [_], _ => rfl
  | a :: b :: rest, h => by
      rw [List.chain'_cons] at h
      have ih := lenient_all_of_chain (b :: rest) h.2
      have hhead : (decide (a ≥ b) || decide (a = 0) || decide (b = 0)) = true := by
        rcases h.1 with h1 | h1 | h1 <;> simp [h1]
      simp [lenientComparisons, List.all_cons, hhead, ih]

/-- A satisfied strict comparison satisfies the lenient comparison at the
same position. -/
theorem strict_all_imp_lenient_all : ∀ l : List Int,
    (strictComparisons l).all id = true → (lenientComparisons l).all id = true
  | [], _ => rfl
  | [_], _ => rfl
  | _ :: b :: rest, h => by
      simp only [strictComparisons, List.all_cons, Bool.and_eq_true, id] at h
      simp [lenientComparisons, h.1, strict_all_imp_lenient_all (b :: rest) h.2]

/-- `takeWhile id` keeps an all-`true` list whole. -/
theorem takeWhile_id_all : ∀ l : List Bool, l.all id = true → l.takeWhile id = l
  | [], _ => rfl
  | b :: rest, h => by
      simp only [List.all_cons, Bool.and_eq_true, id] at h
      simp [List.takeWhile_cons, h.1, takeWhile_id_all rest h.2]

/-! Claim theorems. -/

/-- C1: for every run over a non-empty, filename-sorted input (`k` ranges
over the files), the k-th row's `parent_slot`, `num_salvaged`,
`salvaged_votes` and `salvaged_rewards` equal the spec-side values: the
parent slot is the first file's slot minus one for k = 0 and the previous
file's slot thereafter, and the salvage statistics classify a block-body
attestation (by index) as salvaged exactly when its corresponding reward
map is non-empty and its slot is strictly below that parent slot. -/
theorem C1_salvage_fields (files : List InputFile) (k : Nat) (hk : k < files.length) :
    ((tabulate files).1.getD k default).parent_slot = specParentSlot files k ∧
    ((tabulate files).1.getD k default).num_salvaged =
      specNumSalvaged (specParentSlot files k) (files.getD k default) ∧
    ((tabulate files).1.getD k default).salvaged_votes =
      specSalvagedVotes (specParentSlot files k) (files.getD k default) ∧
    ((tabulate files).1.getD k default).salvaged_rewards =
      specSalvagedRewardSum (specParentSlot files k) (files.getD k default) := by
  match files with
  | [] => simp at hk
  | f :: fs =>
    have hrow := tabulateFrom_getD (f.slot - 1) (f :: fs) k hk
    have hps : (if k = 0 then f.slot - 1 else ((f :: fs).getD (k - 1) default).slot) =
        specParentSlot (f :: fs) k := by
      cases k with
      | zero => simp [specParentSlot]
      | succ j => simp [specParentSlot]
    rw [show (tabulate (f :: fs)).1 = tabulateFrom (f.slot - 1) (f :: fs) from rfl,
      hrow, hps]
    exact ⟨rfl, makeRow_num_salvaged _ _, makeRow_salvaged_votes _ _,
      makeRow_salvaged_rewards _ _⟩

/-- C1 witness: the second row of the two-file sample reports the
spec-side salvage statistics (one salvaged attestation, one vote, reward
5, parent slot 100). -/
theorem C1_salvage_fields_witness :
    (1 < filesEx.length ∧
      ((tabulate filesEx).1.getD 1 default).parent_slot = specParentSlot filesEx 1 ∧
      ((tabulate filesEx).1.getD 1 default).num_salvaged =
        specNumSalvaged (specParentSlot filesEx 1) (filesEx.getD 1 default) ∧
      ((tabulate filesEx).1.getD 1 default).salvaged_votes =
        specSalvagedVotes (specParentSlot filesEx 1) (filesEx.getD 1 default) ∧
      ((tabulate filesEx).1.getD 1 default).salvaged_rewards =
        specSalvagedRewardSum (specParentSlot filesEx 1) (filesEx.getD 1 default)) ∧
    specParentSlot filesEx 1 = 100 ∧
    specNumSalvaged (specParentSlot filesEx 1) (filesEx.getD 1 default) = 1 ∧
    specSalvagedVotes (specParentSlot filesEx 1) (filesEx.getD 1 default) = 1 ∧
    specSalvagedRewardSum (specParentSlot filesEx 1) (filesEx.getD 1 default) = 5 :=
  ⟨⟨by decide, C1_salvage_fields filesEx 1 (by decide)⟩, by decide, by decide,
    by decide, by decide⟩

/-- C2: one run of the tabulator writes exactly one CSV data row per input
file; on the empty input set the script aborts (after writing only the
header) having written zero data rows, which matches zero input files. -/
theorem C2_row_count (files : List InputFile) :
    (tabulate files).1.length = files.length := by
  cases files with
  | nil => rfl
  | cons f fs =>
      rw [show (tabulate (f :: fs)).1 = tabulateFrom (f.slot - 1) (f :: fs) from rfl]
      exact tabulateFrom_length _ _

/-- C3: for every row and each ordering, the longest-ordered-prefix value
is 0 when the first consecutive pair of per-attestation totals violates
that ordering, and equals the attestation count minus one when every
consecutive pair satisfies it. -/
theorem C3_seq_ord (ps : Int) (f : InputFile) :
    (∀ t₁ t₂ rest,
        per_attestation_totals f.rewards.per_attestation_rewards = t₁ :: t₂ :: rest →
        ¬ t₁ ≥ t₂ → (makeRow ps f).seq_strict_ord = 0) ∧
    ((per_attestation_totals f.rewards.per_attestation_rewards).Chain' (· ≥ ·) →
        (makeRow ps f).seq_strict_ord = (makeRow ps f).num_attestations - 1) ∧
    (∀ t₁ t₂ rest,
        per_attestation_totals f.rewards.per_attestation_rewards = t₁ :: t₂ :: rest →
        ¬ (t₁ ≥ t₂ ∨ t₁ = 0 ∨ t₂ = 0) → (makeRow ps f).seq_lenient_ord = 0) ∧
    ((per_attestation_totals f.rewards.per_attestation_rewards).Chain'
          (fun a b => a ≥ b ∨ a = 0 ∨ b = 0) →
        (makeRow ps f).seq_lenient_ord = (makeRow ps f).num_attestations - 1) := by
  refine ⟨?_, ?_, ?_, ?_⟩
  · intro t₁ t₂ rest hT hv
    simp [makeRow, hT, strictComparisons, hv]
  · intro hchain
    have hall := strict_all_of_chain _ hchain
    rw [show (makeRow ps f).seq_strict_ord = (List.takeWhile id (strictComparisons
          (per_attestation_totals f.rewards.per_attestation_rewards))).length from rfl,
      show (makeRow ps f).num_attestations =
          f.rewards.per_attestation_rewards.length from rfl,
      takeWhile_id_all _ hall, strictComparisons_length, per_attestation_totals,
      List.length_map]
  · intro t₁ t₂ rest hT hv
    push_neg at hv
    simp [makeRow, hT, lenientComparisons, hv.1, hv.2.1, hv.2.2]
  · intro hchain
    have hall := lenient_all_of_chain _ hchain
    rw [show (makeRow ps f).seq_lenient_ord = (List.takeWhile id (lenientComparisons
          (per_attestation_totals f.rewards.per_attestation_rewards))).length from rfl,
      show (makeRow ps f).num_attestations =
          f.rewards.per_attestation_rewards.length from rfl,
      takeWhile_id_all _ hall, lenientComparisons_length, per_attestation_totals,
      List.length_map]

/-- C3 witness: for totals [3, 5] the first pair violates both orderings
and both prefix lengths are 0; for totals [10, 8, 0, 5] the lenient
ordering holds on every pair and the lenient prefix length is
4 − 1 = 3. -/
theorem C3_seq_ord_witness :
    ((makeRow 0 fileUp).seq_strict_ord = 0 ∧
      (makeRow 0 fileUp).seq_lenient_ord = 0) ∧
    (makeRow 0 fileEx).seq_lenient_ord = (makeRow 0 fileEx).num_attestations - 1 :=
  ⟨⟨(C3_seq_ord 0 fileUp).1 3 5 [] (by decide) (by decide),
    (C3_seq_ord 0 fileUp).2.2.1 3 5 [] (by decide) (by decide)⟩,
    (C3_seq_ord 0 fileEx).2.2.2
      (List.Chain.cons (by decide) (List.Chain.cons (by decide)
        (List.Chain.cons (by decide) List.Chain.nil)))⟩

/-- C4: the worked example with per-attestation totals 10, 8, 0, 5 yields
strict comparisons [true, true, false], all_strict false, num_strict 2,
seq_strict 2, lenient comparisons [true, true, true], all_lenient true and
seq_lenient 3. -/
theorem C4_worked_example :
    strictComparisons (per_attestation_totals rewardDataEx.per_attestation_rewards) =
      [true, true, false] ∧
    (makeRow 0 fileEx).all_strict_ord = false ∧
    (makeRow 0 fileEx).num_strict_ord = 2 ∧
    (makeRow 0 fileEx).seq_strict_ord = 2 ∧
    lenientComparisons (per_attestation_totals rewardDataEx.per_attestation_rewards) =
      [true, true, true] ∧
    (makeRow 0 fileEx).all_lenient_ord = true ∧
    (makeRow 0 fileEx).seq_lenient_ord = 3 := by
  decide

/-- C5: when every block-body attestation's slot is at least the current
parent slot, the row's `num_salvaged` is 0, whatever the reward maps. -/
theorem C5_no_salvage (ps : Int) (f : InputFile)
    (h : ∀ s ∈ f.block.attestations, ps ≤ s) :
    (makeRow ps f).num_salvaged = 0 := by
  have hnil : salvagedPairs ps f.block.attestations f.rewards.per_attestation_rewards
      = [] := by
    rw [salvagedPairs, List.filter_eq_nil_iff]
    rintro ⟨s, m⟩ hmem
    have hs := (List.of_mem_zip hmem).1
    simp [decide_eq_false (not_lt.mpr (h s hs))]
  simp [makeRow, hnil]

/-- C5 witness: a parent slot of 99 with block-body attestation slots 99
and 100 salvages nothing, though the reward maps are non-empty. -/
theorem C5_no_salvage_witness :
    (∀ s ∈ (filesEx.getD 1 default).block.attestations, (99 : Int) ≤ s) ∧
    (makeRow 99 (filesEx.getD 1 default)).num_salvaged = 0 :=
  ⟨by decide, C5_no_salvage 99 (filesEx.getD 1 default) (by decide)⟩

/-- C6: for every row, `all_strict_ord = true` implies
`all_lenient_ord = true`. -/
theorem C6_strict_imp_lenient (ps : Int) (f : InputFile)
    (h : (makeRow ps f).all_strict_ord = true) :
    (makeRow ps f).all_lenient_ord = true := by
  simp only [makeRow] at h ⊢
  exact strict_all_imp_lenient_all _ h

/-- C6 witness: the first sample file's single total is trivially
strictly ordered, hence leniently ordered. -/
theorem C6_strict_imp_lenient_witness :
    (makeRow 99 (filesEx.getD 0 default)).all_strict_ord = true ∧
    (makeRow 99 (filesEx.getD 0 default)).all_lenient_ord = true :=
  ⟨by decide, C6_strict_imp_lenient 99 (filesEx.getD 0 default) (by decide)⟩

/-- C7: for every row, `useless_attestations` equals the number of
attestations whose reward map contributes no rewards. -/
theorem C7_useless_count (ps : Int) (f : InputFile) :
    (makeRow ps f).useless_attestations =
      specUselessCount f.rewards.per_attestation_rewards := by
  simp only [makeRow, specUselessCount, List.countP_eq_length_filter]
  congr 1
  apply List.filter_congr
  intro m _
  cases m <;> simp

/-- Bumping a validator's counter adds exactly one to the total count. -/
theorem sumCounts_bumpCount : ∀ (m : List (Nat × Nat)) (v : Nat),
    sumCounts (bumpCount m v) = sumCounts m + 1
  | [], v => by simp [bumpCount, sumCounts]
  | (k, c) :: rest, v => by
      by_cases hk : k = v
      · simp only [bumpCount, if_pos hk, sumCounts, List.map_cons, List.sum_cons]
        omega
      · simp only [bumpCount, if_neg hk, sumCounts, List.map_cons, List.sum_cons]
        have ih := sumCounts_bumpCount rest v
        simp only [sumCounts] at ih
        omega

/-- Folding the per-validator bump over a list of validators adds the
list's length to the total count. -/
theorem sumCounts_foldl_bumpCount : ∀ (l : List Nat) (m : List (Nat × Nat)),
    sumCounts (l.foldl bumpCount m) = sumCounts m + l.length
  | [], m => by simp
  | v :: rest, m => by
      simp [List.foldl_cons, sumCounts_foldl_bumpCount rest (bumpCount m v),
        sumCounts_bumpCount]
      omega

/-- The validator accumulator of the aggregator fold is the fold of the
per-file validator bumps. -/
theorem analyse_fold_validators : ∀ (files : List MissedFile) (st : MissedOutput),
    (files.foldl analyseStep st).missed_validators =
      files.foldl (fun m f => f.all.foldl bumpCount m) st.missed_validators
  | [], _ => rfl
  | f :: fs, st => by
      rw [List.foldl_cons, List.foldl_cons]
      exact analyse_fold_validators fs (analyseStep st f)

/-- Folding the per-file validator bumps adds each file's missed-validator
count to the total. -/
theorem sumCounts_fold_all : ∀ (files : List MissedFile) (m : List (Nat × Nat)),
    sumCounts (files.foldl (fun m f => f.all.foldl bumpCount m) m) =
      sumCounts m + (files.map fun f => f.all.length).sum
  | [], m => by simp
  | f :: fs, m => by
      simp [List.foldl_cons, sumCounts_fold_all fs _, sumCounts_foldl_bumpCount]
      omega

/-- C8: the sum of the `missed_attestations` counts over the rows of the
validator CSV equals the sum over all input files of the length of that
file's `"all"` list. -/
theorem C8_total_misses (files : List MissedFile) :
    sumCounts (analyse files).missed_validators =
      (files.map fun f => f.all.length).sum := by
  rw [analyse, analyse_fold_validators, sumCounts_fold_all]
  simp [analyseInit, sumCounts]

/-- The slot accumulator of the aggregator fold is the fold of the
per-file slot-mod additions. -/
theorem analyse_fold_by_slot : ∀ (files : List MissedFile) (st : MissedOutput),
    (files.foldl analyseStep st).missed_by_slot =
      files.foldl (fun m f => addAt m (f.slot % 32) f.all.length) st.missed_by_slot
  | [], _ => rfl
  | f :: fs, st => by
      rw [List.foldl_cons, List.foldl_cons]
      exact analyse_fold_by_slot fs (analyseStep st f)

/-- Folding the slot-mod additions over the files adds, at every entry of
the accumulator, the total missed-validator count of the files congruent
to that entry's key. -/
theorem foldl_addAt_char : ∀ (files : List MissedFile) (m : List (Int × Nat)),
    files.foldl (fun m f => addAt m (f.slot % 32) f.all.length) m =
      m.map fun p => (p.1, p.2 + missesAt p.1 files)
  | [], m => by simp [missesAt]
  | f :: fs, m => by
      rw [List.foldl_cons, foldl_addAt_char fs (addAt m (f.slot % 32) f.all.length)]
      simp only [addAt, List.map_map]
      congr 1
      funext p
      by_cases hp : p.1 = f.slot % 32
      · simp [Function.comp, hp, missesAt, List.filter_cons, Nat.add_assoc]
      · simp [Function.comp, hp, missesAt, List.filter_cons, Ne.symm hp]

/-- The slot-mod accumulator after a run: keys 0..31 in order, each with
the total missed-validator count of the files at that slot position. -/
theorem analyse_by_slot_char (files : List MissedFile) :
    (analyse files).missed_by_slot =
      (List.range 32).map fun i => (Int.ofNat i, missesAt (Int.ofNat i) files) := by
  rw [analyse, analyse_fold_by_slot, foldl_addAt_char]
  show ((List.range 32).map fun i => (Int.ofNat i, (0 : Nat))).map
      (fun p => (p.1, p.2 + missesAt p.1 files)) = _
  rw [List.map_map]
  simp only [Function.comp_def, Nat.zero_add]

/-- C10: for every input file set the slot-mod CSV has exactly 32 data
rows keyed 0..31 in ascending order, a row's count is 0 whenever no input
file at that slot position lists a missed validator, and no other output
(the validator and subnet CSVs, and the tabulator's CSV) pre-populates
rows this way: on an empty input they hold no data rows at all. -/
theorem C10_slot_mod_csv (files : List MissedFile) :
    (analyse files).missed_by_slot.length = 32 ∧
    (analyse files).missed_by_slot.map Prod.fst =
      (List.range 32).map Int.ofNat ∧
    (∀ p ∈ (analyse files).missed_by_slot,
        (∀ f ∈ files, f.slot % 32 = p.1 → f.all = []) → p.2 = 0) ∧
    (analyse []).missed_validators = [] ∧
    (analyse []).missed_subnets = [] ∧
    tabulate [] = ([], false) := by
  refine ⟨?_, ?_, ?_, rfl, rfl, rfl⟩
  · rw [analyse_by_slot_char, List.length_map, List.length_range]
  · rw [analyse_by_slot_char, List.map_map]
    rfl
  · rw [analyse_by_slot_char]
    intro p hp hall
    simp only [List.mem_map, List.mem_range] at hp
    obtain ⟨i, _, rfl⟩ := hp
    apply List.sum_eq_zero
    intro x hx
    simp only [missesAt, List.mem_map, List.mem_filter] at hx
    obtain ⟨f, ⟨hf, hmod⟩, rfl⟩ := hx
    have hempty := hall f hf (by simpa using hmod)
    simp [hempty]

/-- C10 witness: on the one-file sample (slot 5), the slot-mod row keyed 0
is present with count 0, obtained through the claim's theorem. -/
theorem C10_slot_mod_csv_witness :
    ((0 : Int), (0 : Nat)) ∈ (analyse missedFilesEx).missed_by_slot ∧ (0 : Nat) = 0 :=
  ⟨by decide, (C10_slot_mod_csv missedFilesEx).2.2.1 ((0 : Int), (0 : Nat)) (by decide)
    (by decide)⟩

/-- C9: each job is deterministic: two runs over the same directory
contents, whose listings are permutations of each other (the enumeration
order of the directory walk is arbitrary, and each script sorts it),
produce identical CSV output. -/
theorem C9_deterministic (names1 names2 : List String) (h : names1.Perm names2)
    (rewardOf : String → RewardData) (blockOf : String → BlockData)
    (missedOf : String → List Nat × List Nat) :
    tabulateRun names1 rewardOf blockOf = tabulateRun names2 rewardOf blockOf ∧
    analyseRun names1 missedOf = analyseRun names2 missedOf := by
  have hsort : names1.insertionSort (· ≤ ·) = names2.insertionSort (· ≤ ·) :=
    List.eq_of_perm_of_sorted
      ((List.perm_insertionSort _ _).trans (h.trans (List.perm_insertionSort _ _).symm))
      (List.sorted_insertionSort _ _) (List.sorted_insertionSort _ _)
  rw [tabulateRun, tabulateRun, analyseRun, analyseRun, hsort]
  exact ⟨rfl, rfl⟩

/-- C9 witness: two listings of the same two files in opposite enumeration
orders give identical output for both jobs. -/
theorem C9_deterministic_witness :
    List.Perm ["stats_2.json", "stats_1.json"] ["stats_1.json", "stats_2.json"] ∧
    tabulateRun ["stats_2.json", "stats_1.json"] (fun _ => rewardDataEx)
        (fun _ => { attestations := [] }) =
      tabulateRun ["stats_1.json", "stats_2.json"] (fun _ => rewardDataEx)
        (fun _ => { attestations := [] }) ∧
    analyseRun ["stats_2.json", "stats_1.json"] (fun _ => ([7], [2])) =
      analyseRun ["stats_1.json", "stats_2.json"] (fun _ => ([7], [2])) := by
  have hperm : List.Perm ["stats_2.json", "stats_1.json"]
      ["stats_1.json", "stats_2.json"] := List.Perm.swap _ _ _
  exact ⟨hperm, (C9_deterministic _ _ hperm _ _ (fun _ => ([7], [2]))).1,
    (C9_deterministic _ _ hperm (fun _ => rewardDataEx)
      (fun _ => { attestations := [] }) _).2⟩
